import Mathlib

/-!
Verification development for the Nashville accident dashboard (`src/app.py`).

The script loads a CSV of accident records, normalizes a handful of columns,
filters to the Nashville bounding box, and builds several aggregated tables
(top-K category lists, per-hour injury percentages, a weather × illumination
dense grid).  The definitions below are a shallow embedding of those
transformations: a DataFrame is a `List` of row structures, pandas column
operations become per-row functions, `groupby` becomes key-listing plus
filtering, and float metrics are carried exactly in `ℚ`/`ℤ`.
-/

namespace Nashville

/-! ## Timestamps

`pd.to_datetime(df['Date and Time'], format='%m/%d/%Y %I:%M:%S %p')` parses a
12-hour-clock timestamp; `dt.dayofweek` (Monday = 0) and `dt.hour` (0–23) are
then derived from it (src/app.py lines 28–32). -/

/-- a timestamp as parsed by the fixed pattern `%m/%d/%Y %I:%M:%S %p`:
calendar fields plus a 12-hour clock value and an AM/PM flag. -/
structure Timestamp where
  month : ℕ
  day : ℕ
  year : ℕ
  hour12 : ℕ
  minute : ℕ
  second : ℕ
  isPM : Bool
deriving DecidableEq

/-- ranges guaranteed by a successful strict parse of
`%m/%d/%Y %I:%M:%S %p` (in particular `%I` only accepts 01–12). -/
def Timestamp.ValidFormat (t : Timestamp) : Prop :=
  1 ≤ t.month ∧ t.month ≤ 12 ∧ 1 ≤ t.day ∧ t.day ≤ 31 ∧
  1 ≤ t.hour12 ∧ t.hour12 ≤ 12 ∧ t.minute ≤ 59 ∧ t.second ≤ 59

instance (t : Timestamp) : Decidable t.ValidFormat := by
  unfold Timestamp.ValidFormat; infer_instance

/-- the 24-hour clock value `dt.hour` of a parsed 12-hour timestamp:
12 AM is hour 0, 12 PM is hour 12. -/
def Timestamp.hour (t : Timestamp) : ℕ :=
  if t.isPM then (if t.hour12 = 12 then 12 else t.hour12 + 12)
  else (if t.hour12 = 12 then 0 else t.hour12)

/-- days elapsed since 1970-01-01 of a Gregorian civil date
(the standard days-from-civil computation used by datetime libraries;
`/` and `%` on `ℤ` are Euclidean, which on the shifted year floors as
the algorithm requires). -/
def daysFromCivil (y m d : ℤ) : ℤ :=
  let y2 := if m ≤ 2 then y - 1 else y
  let era := y2 / 400
  let yoe := y2 - era * 400
  let mp := (m + 9) % 12
  let doy := (153 * mp + 2) / 5 + d - 1
  let doe := yoe * 365 + yoe / 4 - yoe / 100 + doy
  era * 146097 + doe - 719468

/-- `dt.dayofweek`: Monday = 0 … Sunday = 6.  1970-01-01 (day 0 since epoch)
was a Thursday, hence the shift by 3. -/
def Timestamp.dayOfWeek (t : Timestamp) : ℤ :=
  (daysFromCivil (t.year : ℤ) (t.month : ℤ) (t.day : ℤ) + 3) % 7

/-! ## Rows and the module-level preprocessing (src/app.py lines 26–48)

Raw CSV cells can be missing (`NaN`), embedded as `Option`.  The script
derives `day_of_week`, `hour`, `has_injury`, `has_fatality`, fills the five
soft categorical columns with `"UNKNOWN"`, folds the weather alias
`"OTHER (NARRATIVE)"` into `"UNKNOWN"`, and then drops every row whose
weather or illumination value is `"OTHER"` or `"UNKNOWN"`. -/

/-- a loaded CSV record, with `Option` for possibly-missing cells.  Field
names abbreviate the column names `Date and Time`, `Lat`, `Long`,
`Number of Injuries`, `Number of Fatalities`, `Weather Description`,
`Reporting Officer`, `HarmfulDescriptions`, `Illumination Description`,
`Collision Type Description`. -/
structure Row where
  dateTime : Timestamp
  lat : Option ℚ
  long : Option ℚ
  numInjuries : Option ℤ
  numFatalities : Option ℤ
  weather : Option String
  officer : Option String
  harmful : Option String
  illum : Option String
  collision : Option String
deriving DecidableEq

/-- a record after the module-level preprocessing: derived columns added,
soft categorical columns total strings. -/
structure NormRow where
  dateTime : Timestamp
  lat : Option ℚ
  long : Option ℚ
  numInjuries : Option ℤ
  numFatalities : Option ℤ
  day_of_week : ℤ
  hour : ℕ
  has_injury : Bool
  has_fatality : Bool
  weather : String
  officer : String
  harmful : String
  illum : String
  collision : String
deriving DecidableEq

/-- `fillna('UNKNOWN')` on one cell (src/app.py line 41). -/
def fillUnknown (o : Option String) : String := o.getD "UNKNOWN"

/-- `replace('OTHER (NARRATIVE)', 'UNKNOWN')` on one weather cell
(src/app.py line 42). -/
def foldWeatherAlias (s : String) : String :=
  if s = "OTHER (NARRATIVE)" then "UNKNOWN" else s

/-- the per-row effect of src/app.py lines 28–42 and 48: parse-derived
columns, injury/fatality flags (`NaN > 0` is `False` in pandas, so a missing
count gives `false`), UNKNOWN-fill of the five soft columns and the weather
alias fold (`astype(str)` on the filled officer column is the identity). -/
def normalizeRow (r : Row) : NormRow :=
  { dateTime := r.dateTime
    lat := r.lat
    long := r.long
    numInjuries := r.numInjuries
    numFatalities := r.numFatalities
    day_of_week := r.dateTime.dayOfWeek
    hour := r.dateTime.hour
    has_injury := match r.numInjuries with
      | some n => decide (0 < n)
      | none => false
    has_fatality := match r.numFatalities with
      | some n => decide (0 < n)
      | none => false
    weather := foldWeatherAlias (fillUnknown r.weather)
    officer := fillUnknown r.officer
    harmful := fillUnknown r.harmful
    illum := fillUnknown r.illum
    collision := fillUnknown r.collision }

/-- the exclusion set `exclude = ['OTHER', 'UNKNOWN']` (src/app.py line 44). -/
def excludeVals : List String := ["OTHER", "UNKNOWN"]

/-- the row-retention test of src/app.py lines 45–46:
`~isin(exclude)` on weather and `~isin(exclude)` on illumination. -/
def keepRow (r : NormRow) : Bool :=
  !(excludeVals.contains r.weather) && !(excludeVals.contains r.illum)

/-- the whole module-level preprocessing (src/app.py lines 26–48):
per-row normalization followed by the exclusion filter. -/
def preprocess (rows : List Row) : List NormRow :=
  (rows.map normalizeRow).filter keepRow

/-- column names the module-level preprocessing adds to the loaded table:
exactly the four assignments of src/app.py lines 31, 32, 36, 37. -/
def derivedColumnNames : List String :=
  ["day_of_week", "hour", "has_injury", "has_fatality"]

/-! ## Map-section coordinate filter (src/app.py lines 77–78)

`df = df[(df['Lat'] >= 36.0) & (df['Lat'] <= 36.4) & (df['Long'] >= -87.0)
& (df['Long'] <= -86.5)]`; every comparison against `NaN` is `False`, so a
row with a missing coordinate fails the test. -/

/-- the row test of the coordinate filter. -/
def inMapRange (r : NormRow) : Bool :=
  match r.lat, r.long with
  | some la, some lo =>
      decide (36 ≤ la) && decide (la ≤ 36.4) &&
      decide (-87 ≤ lo) && decide (lo ≤ -86.5)
  | _, _ => false

/-- the coordinate filter itself; `df` is rebound to this table, so every
later chart reads the geographically bounded population. -/
def mapFilter (rows : List NormRow) : List NormRow :=
  rows.filter inMapRange

/-! ## Deterministic subsample (src/app.py lines 9–12)

`load_sample_csv` draws `min(sample_size, len(df_full))` rows with
`DataFrame.sample(n, random_state=seed)`.  With a fixed `random_state` the
library sampler is a pure function of the frame and the seed; it is embedded
as a seeded partial Fisher–Yates draw of distinct row positions driven by a
linear congruential generator. -/

/-- one step of a 64-bit linear congruential generator (Knuth constants),
standing in for the library's seeded pseudo-random stream. -/
def lcgNext (s : ℕ) : ℕ :=
  (6364136223846793005 * s + 1442695040888963407) % 2 ^ 64

/-- draw `k` distinct positions from the pool `avail`, Fisher–Yates style:
each step picks the `s % |avail|`-th remaining position and removes it. -/
def drawIdx : ℕ → ℕ → List ℕ → List ℕ
  | 0, _, _ => []
  | _ + 1, _, [] => []
  | k + 1, s, a :: rest =>
      let avail := a :: rest
      let j := s % avail.length
      avail.getD j 0 :: drawIdx k (lcgNext s) (avail.eraseIdx j)

/-- `load_sample_csv` (src/app.py lines 10–12): read the full table and
return `df_full.sample(n=min(sample_size, len(df_full)), random_state=seed)`.
The `@st.cache_data` memoization is sound because this is a pure function of
`(source, sample_size, seed)`. -/
def load_sample_csv {α : Type} (df_full : List α) (sample_size seed : ℕ) : List α :=
  (drawIdx (min sample_size df_full.length) seed (List.range df_full.length)).filterMap
    (fun i => df_full[i]?)

/-! ## Category Selector: `value_counts().nlargest(K)`

`Series.value_counts()` tallies each distinct value (hash table in
first-appearance order) and sorts the tallies by count descending;
`.nlargest(K)` then keeps the first `K` entries with a stable selection
(`keep='first'`, mergesort), so ties stay in first-seen order. -/

/-- distinct values of a column in first-appearance order. -/
def distincts {α : Type} [DecidableEq α] : List α → List α
  | [] => []
  | x :: xs => x :: (distincts xs).filter (fun y => decide (y ≠ x))

/-- occurrence count of one value in a column. -/
def cnt {α : Type} [DecidableEq α] (l : List α) (v : α) : ℕ :=
  (l.filter (fun x => decide (x = v))).length

/-- insert a count into a strictly descending list of counts, skipping
duplicates. -/
def insertCountDesc (x : ℕ) : List ℕ → List ℕ
  | [] => [x]
  | y :: ys =>
      if y < x then x :: y :: ys
      else if x = y then y :: ys
      else y :: insertCountDesc x ys

/-- the distinct occurrence counts of a column, strictly descending. -/
def countsDesc {α : Type} [DecidableEq α] (l : List α) : List ℕ :=
  ((distincts l).map (cnt l)).foldr insertCountDesc []

/-- `value_counts()`: (value, count) pairs sorted by count descending, ties
listed in first-seen order (the stable order the library preserves). -/
def value_counts {α : Type} [DecidableEq α] (l : List α) : List (α × ℕ) :=
  (countsDesc l).flatMap
    (fun c => ((distincts l).filter (fun v => decide (cnt l v = c))).map (fun v => (v, c)))

/-- `value_counts().nlargest(K).index.tolist()`: the `K` most frequent
distinct values. -/
def nlargestVals {α : Type} [DecidableEq α] (l : List α) (K : ℕ) : List α :=
  ((value_counts l).take K).map Prod.fst

/-- `top_weather` (src/app.py lines 186 and 318): top 8 weather values. -/
def top_weather (rows : List NormRow) : List String :=
  nlargestVals (rows.map (fun r => r.weather)) 8

/-- `top_illum` (src/app.py line 337): top 6 illumination values. -/
def top_illum (rows : List NormRow) : List String :=
  nlargestVals (rows.map (fun r => r.illum)) 6

/-! ## Weather-only analysis (src/app.py lines 200–262)

`df_weather = df[df['Weather Description'].isin(weather_sel)]`, then
`scatter_data` groups by `(hour, Weather Description)` with
`accident_count` (group size) and `injury_count` (sum of the `has_injury`
booleans), and `% Injury = injury_count / accident_count * 100`;
`bar_data` groups the same frame by the same key with `.size()`. -/

/-- the weather multiselect filter (src/app.py line 200). -/
def df_weather (rows : List NormRow) (sel : List String) : List NormRow :=
  rows.filter (fun r => sel.contains r.weather)

/-- the grouping key of `scatter_data` and `bar_data`. -/
def scatterKey (r : NormRow) : ℕ × String := (r.hour, r.weather)

/-- observed groups of the `(hour, weather)` group-by: each key of the
input, once. -/
def scatterKeys (rows : List NormRow) : List (ℕ × String) :=
  distincts (rows.map scatterKey)

/-- rows of one `(hour, weather)` group. -/
def groupRows (rows : List NormRow) (k : ℕ × String) : List NormRow :=
  rows.filter (fun r => decide (scatterKey r = k))

/-- `accident_count`: size of an observed group (a count over the
never-missing weather column equals the group size). -/
def accident_count (rows : List NormRow) (k : ℕ × String) : ℕ :=
  (groupRows rows k).length

/-- `injury_count`: sum of the `has_injury` booleans over a group. -/
def injury_count (rows : List NormRow) (k : ℕ × String) : ℕ :=
  ((groupRows rows k).filter (fun r => r.has_injury)).length

/-- `% Injury = injury_count / accident_count * 100` (src/app.py line 212). -/
def pct_injury (rows : List NormRow) (k : ℕ × String) : ℚ :=
  (injury_count rows k : ℚ) / (accident_count rows k : ℚ) * 100

/-- Modelled from the spec: the fatality variant of the severity-percentage
aggregation (spec §4.4, `pct_fatality = 100 * fatality_count/total`); the
draft under src/ derives `has_fatality` but only computes the injury
percentage, so the fatality percentage is embedded from the spec words with
the same shape as `% Injury`. -/
def fatality_count (rows : List NormRow) (k : ℕ × String) : ℕ :=
  ((groupRows rows k).filter (fun r => r.has_fatality)).length

/-- Modelled from the spec: `pct_fatality`, the fatality analogue of
`% Injury`. -/
def pct_fatality (rows : List NormRow) (k : ℕ × String) : ℚ :=
  (fatality_count rows k : ℚ) / (accident_count rows k : ℚ) * 100

/-! ## Weather × illumination heat map (src/app.py lines 358–402) -/

/-- the metric toggle of the heat-map section. -/
inductive Metric where
  | Injuries : Metric
  | Fatalities : Metric
deriving DecidableEq

/-- `agg_col`: the numeric column summed for the chosen metric. -/
def aggCol (metric : Metric) (r : NormRow) : Option ℤ :=
  match metric with
  | .Injuries => r.numInjuries
  | .Fatalities => r.numFatalities

/-- one row of the heat-map table: the two dimension values with the summed
metric and the group size (pandas `sum` skips missing cells, so a missing
count contributes 0). -/
structure HeatCell where
  weather : String
  illum : String
  total : ℤ
  acc_cnt : ℕ
deriving DecidableEq

/-- the `(Weather Description, Illumination Description)` grouping key. -/
def heatKey (r : NormRow) : String × String := (r.weather, r.illum)

/-- `df_sub = df_in[df_in['Illumination Description'].isin(i_list)]`
(src/app.py line 363). -/
def heatSub (df_in : List NormRow) (i_list : List String) : List NormRow :=
  df_in.filter (fun r => i_list.contains r.illum)

/-- the aggregated cell of one `(weather, illumination)` pair: metric sum and
group size over the matching rows (0 and 0 when no row matches). -/
def aggCellOf (metric : Metric) (dfSub : List NormRow) (p : String × String) : HeatCell :=
  let g := dfSub.filter (fun r => decide (heatKey r = p))
  { weather := p.1
    illum := p.2
    total := (g.map (fun r => (aggCol metric r).getD 0)).sum
    acc_cnt := g.length }

/-- `grp = df_sub.groupby([...]).agg(total=..., acc_cnt=...)` (src/app.py
lines 365–369): one cell per observed key. -/
def grpHeat (metric : Metric) (dfSub : List NormRow) : List HeatCell :=
  (distincts (dfSub.map heatKey)).map (aggCellOf metric dfSub)

/-- the dense-grid reindexing step (src/app.py lines 371–379):
`reindex(MultiIndex.from_product([w_list, i_list]), fill_value=0)` — one
output row per product entry, carrying the matching sparse row when one
exists and zeros otherwise. -/
def reindexFull (g : List HeatCell) (w_list i_list : List String) : List HeatCell :=
  (w_list ×ˢ i_list).map (fun p =>
    match g.find? (fun c => decide (c.weather = p.1 ∧ c.illum = p.2)) with
    | some c => c
    | none => { weather := p.1, illum := p.2, total := 0, acc_cnt := 0 })

/-- the data part of `build_heat` (src/app.py lines 358–380): illumination
filter, sparse group-by, dense-grid reindex. -/
def build_heat (df_in : List NormRow) (metric : Metric)
    (w_list i_list : List String) : List HeatCell :=
  reindexFull (grpHeat metric (heatSub df_in i_list)) w_list i_list

/-- `avg_val = np.where(acc_cnt > 0, total / acc_cnt, 0)` (src/app.py
line 380): the guarded average selected per cell. -/
def HeatCell.avg_val (c : HeatCell) : ℚ :=
  if 0 < c.acc_cnt then (c.total : ℚ) / (c.acc_cnt : ℚ) else 0

/-- the weather filter feeding the heat map (src/app.py line 401). -/
def df_weather_heat (rows : List NormRow) (sel : List String) : List NormRow :=
  rows.filter (fun r => sel.contains r.weather)

/-! ## Spec-side flag definitions (for comparison only)

The spec asserts weekend and night flags among the derived fields; these
definitions follow the spec words so the claim can be compared with the
columns the code actually derives. -/

/-- from the spec words: night flag, `hour ≥ 20 or hour < 6`. -/
def nightSpecFlag (hour : ℕ) : Bool := decide (20 ≤ hour) || decide (hour < 6)

/-- from the spec words: weekend flag, day is Saturday (5) or Sunday (6). -/
def weekendSpecFlag (dow : ℤ) : Bool := decide (dow = 5) || decide (dow = 6)

/-- first-occurrence index of a value in a list (0 when absent at the end). -/
def idxIn {α : Type} [DecidableEq α] : List α → α → ℕ
  | [], _ => 0
  | x :: xs, v => if x = v then 0 else idxIn xs v + 1

/-! ## Concrete inputs used by the witness theorems -/

/-- Saturday 2024-03-02, 11:00:00 PM. -/
def tsSat : Timestamp := ⟨3, 2, 2024, 11, 0, 0, true⟩

/-- a raw record on a Saturday night with no injuries and no fatalities. -/
def rSat : Row :=
  { dateTime := tsSat, lat := none, long := none, numInjuries := some 0,
    numFatalities := some 0, weather := some "CLEAR", officer := none,
    harmful := none, illum := some "DARK - NOT LIGHTED",
    collision := some "Front to Rear" }

/-- a raw record missing both coordinates and the injury count (required
columns in the claim's sense), with retained weather and illumination. -/
def rMissLat : Row :=
  { dateTime := tsSat, lat := none, long := none, numInjuries := none,
    numFatalities := some 0, weather := some "RAIN", officer := none,
    harmful := none, illum := some "DAYLIGHT", collision := none }

/-- a normalized record used where concrete group tables are needed. -/
def nrW (w i : String) (hr : ℕ) (inj : ℤ) : NormRow :=
  { dateTime := tsSat, lat := none, long := none, numInjuries := some inj,
    numFatalities := some 0, day_of_week := 5, hour := hr,
    has_injury := decide (0 < inj), has_fatality := false,
    weather := w, officer := "O105", harmful := "NONE", illum := i,
    collision := "Front to Rear" }

/-- a concrete table for the heat-map witnesses. -/
def heatDemoRows : List NormRow :=
  [nrW "RAIN" "DAYLIGHT" 23 2, nrW "RAIN" "DAYLIGHT" 23 0,
   nrW "CLEAR" "DARK" 23 1]

/-- weather dimension values for the heat-map witnesses (SNOW unobserved). -/
def heatDemoW : List String := ["RAIN", "CLEAR", "SNOW"]

/-- illumination dimension values for the heat-map witnesses. -/
def heatDemoI : List String := ["DAYLIGHT", "DARK"]

/-- a normalized record inside the Nashville bounding box. -/
def nrGeo : NormRow :=
  { dateTime := tsSat, lat := some 36.1, long := some (-86.7),
    numInjuries := some 1, numFatalities := some 0, day_of_week := 5,
    hour := 23, has_injury := true, has_fatality := false,
    weather := "RAIN", officer := "O105", harmful := "NONE",
    illum := "DAYLIGHT", collision := "Front to Rear" }

/-! ## General list lemmas shared by the claim proofs -/

theorem mem_distincts {α : Type} [DecidableEq α] (l : List α) (a : α) :
    a ∈ distincts l ↔ a ∈ l := by
  induction l with
  | nil => simp [distincts]
  | cons x xs ih =>
      simp only [distincts, List.mem_cons, List.mem_filter, decide_eq_true_eq]
      constructor
      · rintro (rfl | ⟨h1, _⟩)
        · exact Or.inl rfl
        · exact Or.inr (ih.mp h1)
      · rintro (rfl | h)
        · exact Or.inl rfl
        · by_cases hax : a = x
          · exact Or.inl hax
          · exact Or.inr ⟨ih.mpr h, hax⟩

theorem nodup_distincts {α : Type} [DecidableEq α] (l : List α) :
    (distincts l).Nodup := by
  induction l with
  | nil => simp [distincts]
  | cons x xs ih =>
      simp only [distincts, List.nodup_cons]
      refine ⟨?_, ih.filter _⟩
      intro hx
      rcases List.mem_filter.mp hx with ⟨_, h2⟩
      simp at h2

theorem flatMap_filter_perm {α κ : Type} [DecidableEq κ] (key : α → κ) :
    ∀ (ks : List κ), ks.Nodup → ∀ (l : List α),
      (ks.flatMap (fun k => l.filter (fun v => decide (key v = k)))).Perm
        (l.filter (fun v => decide (key v ∈ ks))) := by
  intro ks
  induction ks with
  | nil => intro _ l; simp
  | cons c cs ih =>
      intro hnd l
      rcases List.nodup_cons.mp hnd with ⟨hc, hcs⟩
      simp only [List.flatMap_cons]
      refine List.Perm.trans (List.Perm.append_left _ (ih hcs l)) ?_
      have hsplit := List.filter_append_perm (fun v => decide (key v = c))
        (l.filter (fun v => decide (key v ∈ c :: cs)))
      rw [List.filter_filter, List.filter_filter] at hsplit
      have e1 : (l.filter fun a => decide (key a = c) && decide (key a ∈ c :: cs))
          = l.filter (fun v => decide (key v = c)) := by
        apply List.filter_congr
        intro x _
        by_cases h : key x = c <;> simp [h]
      have e2 : (l.filter fun a => (!decide (key a = c)) && decide (key a ∈ c :: cs))
          = l.filter (fun v => decide (key v ∈ cs)) := by
        apply List.filter_congr
        intro x _
        by_cases h : key x = c
        · rw [h]; simp [hc]
        · simp [h]
      rw [e1, e2] at hsplit
      exact hsplit

theorem flatMap_groups_perm {α κ : Type} [DecidableEq κ] (key : α → κ) (l : List α) :
    ((distincts (l.map key)).flatMap
        (fun k => l.filter (fun v => decide (key v = k)))).Perm l := by
  have h := flatMap_filter_perm key (distincts (l.map key)) (nodup_distincts _) l
  have hall : l.filter (fun v => decide (key v ∈ distincts (l.map key))) = l := by
    apply List.filter_eq_self.mpr
    intro a ha
    simp only [decide_eq_true_eq]
    exact (mem_distincts _ _).mpr (List.mem_map_of_mem key ha)
  rwa [hall] at h

theorem sum_group_sizes {α κ : Type} [DecidableEq κ] (key : α → κ) (l : List α) :
    ((distincts (l.map key)).map
        (fun k => (l.filter (fun v => decide (key v = k))).length)).sum = l.length := by
  have h := (flatMap_groups_perm key l).length_eq
  rw [List.length_flatMap] at h
  simpa [Function.comp] using h

theorem filter_eq_singleton_length {α : Type} [DecidableEq α] :
    ∀ (l : List α), l.Nodup → ∀ p ∈ l,
      (l.filter (fun q => decide (q = p))).length = 1 := by
  intro l
  induction l with
  | nil => simp
  | cons x xs ih =>
      intro hnd p hp
      rcases List.nodup_cons.mp hnd with ⟨hx, hxs⟩
      rcases List.mem_cons.mp hp with rfl | hp2
      · rw [List.filter_cons_of_pos (by simp)]
        have hnil : xs.filter (fun q => decide (q = p)) = [] := by
          apply List.filter_eq_nil_iff.mpr
          intro a ha
          simp only [decide_eq_true_eq]
          rintro rfl
          exact hx ha
        simp [hnil]
      · have hxp : x ≠ p := fun h => hx (h ▸ hp2)
        rw [List.filter_cons_of_neg (by simp [hxp])]
        exact ih hxs p hp2

theorem idxIn_cons_self {α : Type} [DecidableEq α] (x : α) (xs : List α) :
    idxIn (x :: xs) x = 0 := by
  simp [idxIn]

theorem idxIn_cons_ne {α : Type} [DecidableEq α] (x : α) (xs : List α) (v : α)
    (h : x ≠ v) : idxIn (x :: xs) v = idxIn xs v + 1 := by
  simp [idxIn, h]

theorem pairwise_idxIn_distincts {α : Type} [DecidableEq α] :
    ∀ (l : List α), (distincts l).Pairwise (fun a b => idxIn l a < idxIn l b) := by
  intro l
  induction l with
  | nil => simp [distincts]
  | cons x xs ih =>
      simp only [distincts, List.pairwise_cons]
      constructor
      · intro b hb
        rcases List.mem_filter.mp hb with ⟨_, hbx⟩
        simp only [decide_eq_true_eq] at hbx
        rw [idxIn_cons_self, idxIn_cons_ne x xs b (fun h => hbx h.symm)]
        exact Nat.succ_pos _
      · refine (ih.filter _).imp_of_mem ?_
        intro a b ha hb hab
        have hax : a ≠ x := by
          rcases List.mem_filter.mp ha with ⟨_, h2⟩
          simpa using h2
        have hbx : b ≠ x := by
          rcases List.mem_filter.mp hb with ⟨_, h2⟩
          simpa using h2
        rw [idxIn_cons_ne x xs a (Ne.symm hax), idxIn_cons_ne x xs b (Ne.symm hbx)]
        omega

theorem mem_insertCountDesc (a x : ℕ) :
    ∀ (ys : List ℕ), a ∈ insertCountDesc x ys ↔ a = x ∨ a ∈ ys := by
  intro ys
  induction ys with
  | nil => simp [insertCountDesc]
  | cons y ys ih =>
      simp only [insertCountDesc]
      by_cases h1 : y < x
      · simp [h1, List.mem_cons]
      · by_cases h2 : x = y
        · subst h2
          simp [h1, List.mem_cons]
        · simp only [h1, if_false, h2, if_false, List.mem_cons, ih]
          tauto

theorem pairwise_gt_insertCountDesc (x : ℕ) :
    ∀ (ys : List ℕ), ys.Pairwise (· > ·) →
      (insertCountDesc x ys).Pairwise (· > ·) := by
  intro ys
  induction ys with
  | nil => simp [insertCountDesc]
  | cons y ys ih =>
      intro hp
      rcases List.pairwise_cons.mp hp with ⟨hy, hys⟩
      simp only [insertCountDesc]
      by_cases h1 : y < x
      · simp only [h1, if_true]
        refine List.pairwise_cons.mpr ⟨?_, hp⟩
        intro b hb
        rcases List.mem_cons.mp hb with rfl | hb2
        · exact h1
        · exact lt_trans (hy b hb2) h1
      · by_cases h2 : x = y
        · simpa [h1, h2] using hp
        · simp only [h1, if_false, h2, if_false]
          refine List.pairwise_cons.mpr ⟨?_, ih hys⟩
          intro b hb
          rcases (mem_insertCountDesc b x ys).mp hb with rfl | hb2
          · omega
          · exact hy b hb2

theorem pairwise_gt_foldr_insert :
    ∀ (xs : List ℕ), (xs.foldr insertCountDesc []).Pairwise (· > ·) := by
  intro xs
  induction xs with
  | nil => simp
  | cons x xs ih => exact pairwise_gt_insertCountDesc x _ ih

theorem mem_foldr_insert (a : ℕ) :
    ∀ (xs : List ℕ), a ∈ xs.foldr insertCountDesc [] ↔ a ∈ xs := by
  intro xs
  induction xs with
  | nil => simp
  | cons x xs ih =>
      simp only [List.foldr_cons, mem_insertCountDesc, ih, List.mem_cons]

/-! ## Lemmas about the seeded sampler -/

theorem drawIdx_succ_cons (k s a : ℕ) (rest : List ℕ) :
    drawIdx (k + 1) s (a :: rest)
      = (a :: rest).getD (s % (a :: rest).length) 0
        :: drawIdx k (lcgNext s) ((a :: rest).eraseIdx (s % (a :: rest).length)) := rfl

theorem drawIdx_spec :
    ∀ (k s : ℕ) (avail : List ℕ), k ≤ avail.length →
      (drawIdx k s avail).length = k ∧ ∀ x ∈ drawIdx k s avail, x ∈ avail := by
  intro k
  induction k with
  | zero => intro s avail _; exact ⟨rfl, by simp [drawIdx]⟩
  | succ k ih =>
      intro s avail hk
      match avail with
      | [] => simp at hk
      | a :: rest =>
          have hj : s % (a :: rest).length < (a :: rest).length :=
            Nat.mod_lt _ (by simp)
          have hnext : k ≤ ((a :: rest).eraseIdx (s % (a :: rest).length)).length := by
            rw [List.length_eraseIdx, if_pos hj]
            omega
          have hrec := ih (lcgNext s) _ hnext
          rw [drawIdx_succ_cons]
          constructor
          · rw [List.length_cons, hrec.1]
          · intro x hx
            rcases List.mem_cons.mp hx with rfl | h
            · rw [List.getD_eq_getElem _ _ hj]
              exact List.getElem_mem hj
            · exact List.eraseIdx_subset _ _ (hrec.2 x h)

theorem filterMap_getElem_spec {α : Type} (l : List α) :
    ∀ (idxs : List ℕ), (∀ i ∈ idxs, i < l.length) →
      (idxs.filterMap (fun i => l[i]?)).length = idxs.length
      ∧ ∀ r ∈ idxs.filterMap (fun i => l[i]?), r ∈ l := by
  intro idxs
  induction idxs with
  | nil => intro _; exact ⟨rfl, by simp⟩
  | cons i is ih =>
      intro hall
      have hi : i < l.length := hall i (List.mem_cons_self i is)
      have hrest := ih (fun j hj => hall j (List.mem_cons_of_mem _ hj))
      simp only [List.filterMap_cons, List.getElem?_eq_getElem hi]
      constructor
      · simp [hrest.1]
      · intro r hr
        rcases List.mem_cons.mp hr with rfl | h
        · exact List.getElem_mem hi
        · exact hrest.2 r h

/-! ## Claim theorems -/

/-- C3: the Loader's subsample returns a table of exactly
`min(n, total_rows)` rows drawn from the source, and any two calls with the
same source, size, and seed return identical output tables (the embedded
sampler is a pure function of `(source, size, seed)`, so repeated calls are
definitionally equal). -/
theorem load_sample_deterministic {α : Type} (rows : List α) (n seed : ℕ) :
    (load_sample_csv rows n seed).length = min n rows.length
    ∧ (∀ r ∈ load_sample_csv rows n seed, r ∈ rows)
    ∧ load_sample_csv rows n seed = load_sample_csv rows n seed := by
  have hdraw := drawIdx_spec (min n rows.length) seed (List.range rows.length)
    (by rw [List.length_range]; exact Nat.min_le_right _ _)
  have hidx : ∀ i ∈ drawIdx (min n rows.length) seed (List.range rows.length),
      i < rows.length := by
    intro i hi
    exact List.mem_range.mp (hdraw.2 i hi)
  have hfm := filterMap_getElem_spec rows _ hidx
  refine ⟨?_, hfm.2, rfl⟩
  show (List.filterMap _ _).length = min n rows.length
  rw [hfm.1, hdraw.1]

/-- C3 witness: the sampler at a concrete five-row table with target 3 and
seed 42 returns three rows, each drawn from the source. -/
theorem load_sample_deterministic_witness :
    (load_sample_csv [10, 20, 30, 40, 50] 3 42).length = min 3 5
    ∧ (30 : ℕ) ∈ [10, 20, 30, 40, 50] :=
  ⟨(load_sample_deterministic [10, 20, 30, 40, 50] 3 42).1,
   (load_sample_deterministic [10, 20, 30, 40, 50] 3 42).2.1 30 (by decide)⟩

/-- C4: after the normalization stage no surviving row has a weather or
illumination value in the exclusion set, and every surviving row is the
UNKNOWN-fill / alias-fold normalization of an input row. -/
theorem exclusion_invariant (rows : List Row) (r : NormRow)
    (hr : r ∈ preprocess rows) :
    (r.weather ≠ "OTHER" ∧ r.weather ≠ "UNKNOWN" ∧
     r.illum ≠ "OTHER" ∧ r.illum ≠ "UNKNOWN")
    ∧ ∃ r0 ∈ rows, r = normalizeRow r0 := by
  rcases List.mem_filter.mp hr with ⟨hmem, hkeep⟩
  simp only [keepRow, Bool.and_eq_true, Bool.not_eq_true'] at hkeep
  have hw : r.weather ∉ excludeVals := by
    intro hmemw
    have h1 := hkeep.1
    rw [show excludeVals.contains r.weather = excludeVals.elem r.weather from rfl,
      List.elem_iff.mpr hmemw] at h1
    simp at h1
  have hi : r.illum ∉ excludeVals := by
    intro hmemi
    have h2 := hkeep.2
    rw [show excludeVals.contains r.illum = excludeVals.elem r.illum from rfl,
      List.elem_iff.mpr hmemi] at h2
    simp at h2
  simp only [excludeVals, List.mem_cons, List.not_mem_nil, or_false, not_or] at hw hi
  rcases List.mem_map.mp hmem with ⟨r0, h0, heq⟩
  exact ⟨⟨hw.1, hw.2, hi.1, hi.2⟩, r0, h0, heq.symm⟩

/-- C4 witness: the Saturday-night record survives preprocessing and its
categorical values avoid the exclusion set. -/
theorem exclusion_invariant_witness :
    (normalizeRow rSat).weather ≠ "OTHER" ∧ (normalizeRow rSat).weather ≠ "UNKNOWN" ∧
    (normalizeRow rSat).illum ≠ "OTHER" ∧ (normalizeRow rSat).illum ≠ "UNKNOWN" :=
  (exclusion_invariant [rSat] (normalizeRow rSat)
    (by rw [show preprocess [rSat] = [normalizeRow rSat] from rfl]
        exact List.mem_singleton.mpr rfl)).1

/-- C6 counterexample: a record missing both coordinates and the injury
count (required columns) is NOT removed by the normalization stage — it
survives in full, so the claimed required-column row-drop does not exist in
the code. -/
theorem missing_required_retained_cex :
    rMissLat.lat = none ∧ rMissLat.long = none ∧ rMissLat.numInjuries = none ∧
    preprocess [rMissLat] = [normalizeRow rMissLat] ∧
    (preprocess [rMissLat]).length = 1 :=
  ⟨rfl, rfl, rfl, rfl, rfl⟩

/-- C6 amended: normalization never drops a row for missing required-column
values — retention depends only on the weather and illumination values; rows
missing only officer, harmful-description, or collision-type are retained
with the UNKNOWN sentinel, while a missing weather or illumination value
becomes UNKNOWN and is then dropped by the exclusion step. -/
theorem no_required_drop (rows : List Row) :
    preprocess rows
      = (rows.filter (fun r => keepRow (normalizeRow r))).map normalizeRow
    ∧ ∀ r : Row,
        keepRow (normalizeRow { r with lat := none, long := none,
                                       numInjuries := none, numFatalities := none })
          = keepRow (normalizeRow r)
      ∧ keepRow (normalizeRow { r with officer := none, harmful := none,
                                       collision := none })
          = keepRow (normalizeRow r)
      ∧ (r.officer = none → (normalizeRow r).officer = "UNKNOWN")
      ∧ (r.harmful = none → (normalizeRow r).harmful = "UNKNOWN")
      ∧ (r.collision = none → (normalizeRow r).collision = "UNKNOWN")
      ∧ (r.weather = none → keepRow (normalizeRow r) = false)
      ∧ (r.illum = none → keepRow (normalizeRow r) = false) := by
  constructor
  · exact List.filter_map normalizeRow rows
  · intro r
    refine ⟨rfl, rfl, ?_, ?_, ?_, ?_, ?_⟩
    · intro h; simp [normalizeRow, fillUnknown, h]
    · intro h; simp [normalizeRow, fillUnknown, h]
    · intro h; simp [normalizeRow, fillUnknown, h]
    · intro h
      have hw : (normalizeRow r).weather = "UNKNOWN" := by
        simp [normalizeRow, fillUnknown, foldWeatherAlias, h]
      simp [keepRow, hw, excludeVals]
    · intro h
      have hil : (normalizeRow r).illum = "UNKNOWN" := by
        simp [normalizeRow, fillUnknown, h]
      simp [keepRow, hil, excludeVals]

/-- C6 amended witness: at the concrete record missing coordinates and the
injury count, retention is unchanged by blanking all required fields, and a
blanked officer cell shows the UNKNOWN sentinel. -/
theorem no_required_drop_witness :
    keepRow (normalizeRow { rMissLat with lat := none, long := none,
                                          numInjuries := none, numFatalities := none })
      = keepRow (normalizeRow rMissLat)
    ∧ (normalizeRow rMissLat).officer = "UNKNOWN"
    ∧ keepRow (normalizeRow { rMissLat with weather := none }) = false :=
  ⟨((no_required_drop [rMissLat]).2 rMissLat).1,
   ((no_required_drop [rMissLat]).2 rMissLat).2.2.1 rfl,
   ((no_required_drop [rMissLat]).2 { rMissLat with weather := none }).2.2.2.2.2.1 rfl⟩

/-- C5 counterexample: the preprocessing derives exactly the four columns
`day_of_week`, `hour`, `has_injury`, `has_fatality`; at a Saturday
11 PM record with no injuries the spec-side weekend and night flags are
`true` while both derived Boolean columns are `false`, and the two numeric
derived columns hold 5 and 23 — so no derived field is a weekend flag,
night flag, or calendar year/month/day (the record's date is 2024-03-02). -/
theorem no_weekend_night_fields_cex :
    derivedColumnNames = ["day_of_week", "hour", "has_injury", "has_fatality"]
    ∧ weekendSpecFlag (normalizeRow rSat).day_of_week = true
    ∧ nightSpecFlag (normalizeRow rSat).hour = true
    ∧ (normalizeRow rSat).has_injury = false
    ∧ (normalizeRow rSat).has_fatality = false
    ∧ (normalizeRow rSat).day_of_week = 5
    ∧ (normalizeRow rSat).hour = 23
    ∧ rSat.dateTime.year = 2024 ∧ rSat.dateTime.month = 3
    ∧ rSat.dateTime.day = 2 := by
  refine ⟨rfl, ?_, rfl, rfl, rfl, ?_, rfl, rfl, rfl, rfl⟩ <;> decide

/-- C5 amended: after normalization every row carries `day_of_week` (0–6)
and `hour` (0–23 under the parse-guaranteed field ranges), both computed as
pure functions of the parsed timestamp; no weekend flag, night flag, or
calendar year/month/day columns are derived. -/
theorem derived_time_fields (r : Row) :
    (normalizeRow r).day_of_week = r.dateTime.dayOfWeek
    ∧ 0 ≤ (normalizeRow r).day_of_week
    ∧ (normalizeRow r).day_of_week ≤ 6
    ∧ (normalizeRow r).hour = r.dateTime.hour
    ∧ (r.dateTime.ValidFormat → (normalizeRow r).hour ≤ 23) := by
  refine ⟨rfl, ?_, ?_, rfl, ?_⟩
  · show 0 ≤ r.dateTime.dayOfWeek
    unfold Timestamp.dayOfWeek
    exact Int.emod_nonneg _ (by norm_num)
  · show r.dateTime.dayOfWeek ≤ 6
    unfold Timestamp.dayOfWeek
    have h := Int.emod_lt_of_pos
      (daysFromCivil (r.dateTime.year : ℤ) (r.dateTime.month : ℤ)
        (r.dateTime.day : ℤ) + 3) (show (0:ℤ) < 7 by norm_num)
    omega
  · intro hv
    obtain ⟨_, _, _, _, h5, h6, _, _⟩ := hv
    show r.dateTime.hour ≤ 23
    unfold Timestamp.hour
    split_ifs <;> omega

/-- C5 amended witness: the Saturday 11 PM timestamp is well-formed and its
derived hour is at most 23. -/
theorem derived_time_fields_witness :
    tsSat.ValidFormat ∧ (normalizeRow rSat).hour ≤ 23 :=
  ⟨by decide, (derived_time_fields rSat).2.2.2.2 (by decide)⟩

/-- C8: in the `(hour, weather)` group-by behind `scatter_data` and
`bar_data`, the per-group `accident_count` values over all observed groups
sum to the number of rows of the weather-filtered input: grouping neither
loses nor duplicates rows. -/
theorem grouping_conserves_rows (rows : List NormRow) (sel : List String) :
    ((scatterKeys (df_weather rows sel)).map
        (fun k => accident_count (df_weather rows sel) k)).sum
      = (df_weather rows sel).length := by
  simpa [scatterKeys, accident_count, groupRows] using
    sum_group_sizes scatterKey (df_weather rows sel)

theorem pct_aux (i c : ℕ) (hc : 0 < c) (hi : i ≤ c) :
    0 ≤ (i : ℚ) / (c : ℚ) * 100 ∧ (i : ℚ) / (c : ℚ) * 100 ≤ 100 := by
  have hcq : (0:ℚ) < (c:ℚ) := by exact_mod_cast hc
  constructor
  · positivity
  · have h1 : (i:ℚ) / (c:ℚ) ≤ 1 := by
      rw [div_le_one hcq]
      exact_mod_cast hi
    calc (i:ℚ) / (c:ℚ) * 100 ≤ 1 * 100 :=
          mul_le_mul_of_nonneg_right h1 (by norm_num)
      _ = 100 := one_mul 100

/-- C9: every observed group of the severity-percentage aggregation has
`accident_count ≥ 1`, and both the injury percentage and the (spec-modelled)
fatality percentage lie in `[0, 100]`. -/
theorem pct_bounds_observed (rows : List NormRow) (k : ℕ × String)
    (hk : k ∈ scatterKeys rows) :
    1 ≤ accident_count rows k
    ∧ 0 ≤ pct_injury rows k ∧ pct_injury rows k ≤ 100
    ∧ 0 ≤ pct_fatality rows k ∧ pct_fatality rows k ≤ 100 := by
  have hmem : k ∈ rows.map scatterKey := (mem_distincts _ _).mp hk
  rcases List.mem_map.mp hmem with ⟨r, hr, hkey⟩
  have hrg : r ∈ groupRows rows k :=
    List.mem_filter.mpr ⟨hr, by simp [hkey]⟩
  have hc : 0 < accident_count rows k := List.length_pos_of_mem hrg
  have hinj : injury_count rows k ≤ accident_count rows k :=
    List.length_filter_le _ _
  have hfat : fatality_count rows k ≤ accident_count rows k :=
    List.length_filter_le _ _
  exact ⟨hc, (pct_aux _ _ hc hinj).1, (pct_aux _ _ hc hinj).2,
    (pct_aux _ _ hc hfat).1, (pct_aux _ _ hc hfat).2⟩

/-- C9 witness: a concrete two-row group at hour 23 under weather RAIN (one
row with an injury) satisfies the bounds. -/
theorem pct_bounds_observed_witness :
    1 ≤ accident_count [nrW "RAIN" "DAYLIGHT" 23 2, nrW "RAIN" "DAYLIGHT" 23 0] (23, "RAIN")
    ∧ 0 ≤ pct_injury [nrW "RAIN" "DAYLIGHT" 23 2, nrW "RAIN" "DAYLIGHT" 23 0] (23, "RAIN")
    ∧ pct_injury [nrW "RAIN" "DAYLIGHT" 23 2, nrW "RAIN" "DAYLIGHT" 23 0] (23, "RAIN") ≤ 100
    ∧ 0 ≤ pct_fatality [nrW "RAIN" "DAYLIGHT" 23 2, nrW "RAIN" "DAYLIGHT" 23 0] (23, "RAIN")
    ∧ pct_fatality [nrW "RAIN" "DAYLIGHT" 23 2, nrW "RAIN" "DAYLIGHT" 23 0] (23, "RAIN") ≤ 100 :=
  pct_bounds_observed [nrW "RAIN" "DAYLIGHT" 23 2, nrW "RAIN" "DAYLIGHT" 23 0]
    (23, "RAIN") (by decide)

/-- C10: every row surviving the map-section coordinate filter has present
coordinates inside the bounding box, and the tables feeding the later charts
(the weather-filtered scatter/bar input, the heat-map weather filter and its
illumination sub-filter) are subsets of that geographically bounded
population. -/
theorem map_bounds_invariant (rows : List NormRow) (r : NormRow) :
    (r ∈ mapFilter rows →
      ∃ la lo, r.lat = some la ∧ r.long = some lo ∧
        36 ≤ la ∧ la ≤ 36.4 ∧ -87 ≤ lo ∧ lo ≤ -86.5)
    ∧ (∀ sel, r ∈ df_weather (mapFilter rows) sel → r ∈ mapFilter rows)
    ∧ (∀ sel, r ∈ df_weather_heat (mapFilter rows) sel → r ∈ mapFilter rows)
    ∧ (∀ sel i_list,
        r ∈ heatSub (df_weather_heat (mapFilter rows) sel) i_list →
          r ∈ mapFilter rows) := by
  refine ⟨?_, fun sel hr => (List.mem_filter.mp hr).1,
    fun sel hr => (List.mem_filter.mp hr).1,
    fun sel i_list hr => (List.mem_filter.mp (List.mem_filter.mp hr).1).1⟩
  intro hr
  have hR := (List.mem_filter.mp hr).2
  unfold inMapRange at hR
  rcases hla : r.lat with _ | la
  · rw [hla] at hR; simp at hR
  · rcases hlo : r.long with _ | lo
    · rw [hla, hlo] at hR; simp at hR
    · rw [hla, hlo] at hR
      simp only [Bool.and_eq_true, decide_eq_true_eq] at hR
      refine ⟨la, lo, rfl, rfl, ?_, ?_, ?_, ?_⟩ <;> tauto

/-- C10 witness: a concrete in-range record passes the filter and exposes
its bounded coordinates. -/
theorem map_bounds_invariant_witness :
    ∃ la lo, nrGeo.lat = some la ∧ nrGeo.long = some lo ∧
      36 ≤ la ∧ la ≤ 36.4 ∧ -87 ≤ lo ∧ lo ≤ -86.5 :=
  (map_bounds_invariant [nrGeo] nrGeo).1
    (by norm_num [mapFilter, inMapRange, nrGeo, List.filter])

/-! ## Dense-grid lemmas (C1, C2) -/

theorem find?_keyed_map (f : String × String → HeatCell)
    (hf : ∀ k, (f k).weather = k.1 ∧ (f k).illum = k.2) :
    ∀ (ks : List (String × String)) (p : String × String),
      (ks.map f).find? (fun c => decide (c.weather = p.1 ∧ c.illum = p.2))
        = if p ∈ ks then some (f p) else none := by
  intro ks
  induction ks with
  | nil => intro p; simp
  | cons k ks ih =>
      intro p
      rw [List.map_cons]
      by_cases hkp : k = p
      · subst hkp
        rw [List.find?_cons_of_pos _ (by simp [(hf k).1, (hf k).2])]
        simp
      · rw [List.find?_cons_of_neg _ (by
          simp only [(hf k).1, (hf k).2, decide_eq_true_eq]
          exact fun hc => hkp (Prod.ext_iff.mpr ⟨hc.1, hc.2⟩)), ih p]
        simp [List.mem_cons, Ne.symm hkp]

theorem build_heat_eq_map (df_in : List NormRow) (metric : Metric)
    (w_list i_list : List String) :
    build_heat df_in metric w_list i_list
      = (w_list ×ˢ i_list).map (aggCellOf metric (heatSub df_in i_list)) := by
  unfold build_heat reindexFull grpHeat
  apply List.map_congr_left
  intro p _
  rw [find?_keyed_map (aggCellOf metric (heatSub df_in i_list))
    (fun k => ⟨rfl, rfl⟩) _ p]
  by_cases hobs : p ∈ distincts ((heatSub df_in i_list).map heatKey)
  · rw [if_pos hobs]
  · rw [if_neg hobs]
    have hnil : (heatSub df_in i_list).filter (fun r => decide (heatKey r = p)) = [] := by
      apply List.filter_eq_nil_iff.mpr
      intro r hr
      simp only [decide_eq_true_eq]
      intro hkey
      exact hobs ((mem_distincts _ _).mpr (hkey ▸ List.mem_map_of_mem heatKey hr))
    simp only [aggCellOf]
    rw [hnil]
    rfl

/-- C1: for every input table, metric, and pair of non-empty duplicate-free
dimension lists, the dense-grid reindexing inside `build_heat` yields exactly
`|w_list| × |i_list|` rows, every pair of the Cartesian product appears in
exactly one row, and each product pair's row carries exactly the aggregated
metrics of its group (so observed combinations keep their sums and counts). -/
theorem dense_grid_complete (df_in : List NormRow) (metric : Metric)
    (w_list i_list : List String) (_h0w : w_list ≠ []) (_h0i : i_list ≠ [])
    (hw : w_list.Nodup) (hi : i_list.Nodup) :
    (build_heat df_in metric w_list i_list).length = w_list.length * i_list.length
    ∧ (∀ p ∈ w_list ×ˢ i_list,
        ((build_heat df_in metric w_list i_list).filter
            (fun c => decide (c.weather = p.1 ∧ c.illum = p.2))).length = 1)
    ∧ (∀ p ∈ w_list ×ˢ i_list,
        aggCellOf metric (heatSub df_in i_list) p
          ∈ build_heat df_in metric w_list i_list) := by
  rw [build_heat_eq_map]
  refine ⟨?_, ?_, ?_⟩
  · rw [List.length_map, List.length_product]
  · intro p hp
    rw [List.filter_map, List.length_map]
    have heq : ((w_list ×ˢ i_list).filter
        ((fun c => decide (c.weather = p.1 ∧ c.illum = p.2))
          ∘ aggCellOf metric (heatSub df_in i_list)))
        = (w_list ×ˢ i_list).filter (fun q => decide (q = p)) := by
      apply List.filter_congr
      intro q _
      apply decide_eq_decide.mpr
      constructor
      · intro hq; exact Prod.ext_iff.mpr ⟨hq.1, hq.2⟩
      · rintro rfl; exact ⟨rfl, rfl⟩
    rw [heq]
    exact filter_eq_singleton_length _ (hw.product hi) p hp
  · intro p hp
    exact List.mem_map_of_mem _ hp

/-- C1 witness: a three-by-two dense grid over a concrete three-row table
has six rows, the observed pair (RAIN, DAYLIGHT) appears exactly once, and
its aggregated cell is in the output. -/
theorem dense_grid_complete_witness :
    (build_heat heatDemoRows Metric.Injuries heatDemoW heatDemoI).length
        = heatDemoW.length * heatDemoI.length
    ∧ ((build_heat heatDemoRows Metric.Injuries heatDemoW heatDemoI).filter
        (fun c => decide (c.weather = "RAIN" ∧ c.illum = "DAYLIGHT"))).length = 1
    ∧ aggCellOf Metric.Injuries (heatSub heatDemoRows heatDemoI) ("RAIN", "DAYLIGHT")
        ∈ build_heat heatDemoRows Metric.Injuries heatDemoW heatDemoI :=
  ⟨(dense_grid_complete heatDemoRows Metric.Injuries heatDemoW heatDemoI
      (by decide) (by decide) (by decide) (by decide)).1,
   (dense_grid_complete heatDemoRows Metric.Injuries heatDemoW heatDemoI
      (by decide) (by decide) (by decide) (by decide)).2.1
      ("RAIN", "DAYLIGHT") (by decide),
   (dense_grid_complete heatDemoRows Metric.Injuries heatDemoW heatDemoI
      (by decide) (by decide) (by decide) (by decide)).2.2
      ("RAIN", "DAYLIGHT") (by decide)⟩

/-- C2: in every `build_heat` output cell the average is the guarded
division (`total / acc_cnt` only when `acc_cnt > 0`, else 0), a zero-count
cell also has zero metric sum, and every unobserved product pair yields the
all-zero synthesized cell whose average is 0. -/
theorem zero_guard (df_in : List NormRow) (metric : Metric)
    (w_list i_list : List String) :
    (∀ c ∈ build_heat df_in metric w_list i_list,
        (c.acc_cnt = 0 → c.total = 0 ∧ c.avg_val = 0)
        ∧ (0 < c.acc_cnt → c.avg_val = (c.total : ℚ) / (c.acc_cnt : ℚ)))
    ∧ (∀ p ∈ w_list ×ˢ i_list,
        (∀ r ∈ heatSub df_in i_list, heatKey r ≠ p) →
          ({ weather := p.1, illum := p.2, total := 0, acc_cnt := 0 } : HeatCell)
              ∈ build_heat df_in metric w_list i_list
          ∧ HeatCell.avg_val { weather := p.1, illum := p.2, total := 0, acc_cnt := 0 } = 0) := by
  constructor
  · intro c hc
    constructor
    · intro h0
      rw [build_heat_eq_map] at hc
      rcases List.mem_map.mp hc with ⟨p, _, rfl⟩
      have h0l : ((heatSub df_in i_list).filter
          (fun r => decide (heatKey r = p))).length = 0 := h0
      have hnil := List.length_eq_zero.mp h0l
      have hcell : aggCellOf metric (heatSub df_in i_list) p
          = { weather := p.1, illum := p.2, total := 0, acc_cnt := 0 } := by
        simp only [aggCellOf]
        rw [hnil]
        rfl
      rw [hcell]
      refine ⟨rfl, ?_⟩
      unfold HeatCell.avg_val
      norm_num
    · intro hpos
      unfold HeatCell.avg_val
      rw [if_pos hpos]
  · intro p hp hnone
    have hnil : (heatSub df_in i_list).filter (fun r => decide (heatKey r = p)) = [] := by
      apply List.filter_eq_nil_iff.mpr
      intro r hr
      simp only [decide_eq_true_eq]
      exact hnone r hr
    have hcell : aggCellOf metric (heatSub df_in i_list) p
        = { weather := p.1, illum := p.2, total := 0, acc_cnt := 0 } := by
      simp only [aggCellOf]
      rw [hnil]
      rfl
    constructor
    · rw [build_heat_eq_map]
      exact hcell ▸ List.mem_map_of_mem _ hp
    · unfold HeatCell.avg_val
      norm_num

/-- C2 witness: the unobserved pair (SNOW, DARK) of the demo grid yields the
synthesized all-zero cell with average 0. -/
theorem zero_guard_witness :
    ({ weather := "SNOW", illum := "DARK", total := 0, acc_cnt := 0 } : HeatCell)
        ∈ build_heat heatDemoRows Metric.Injuries heatDemoW heatDemoI
    ∧ HeatCell.avg_val { weather := "SNOW", illum := "DARK", total := 0, acc_cnt := 0 } = 0 :=
  (zero_guard heatDemoRows Metric.Injuries heatDemoW heatDemoI).2
    ("SNOW", "DARK") (by decide) (by decide)

/-! ## Category Selector lemmas (C7) -/

theorem nodup_countsDesc {α : Type} [DecidableEq α] (l : List α) :
    (countsDesc l).Nodup :=
  (pairwise_gt_foldr_insert ((distincts l).map (cnt l))).imp (fun h => ne_of_gt h)

theorem mem_countsDesc {α : Type} [DecidableEq α] (l : List α) (c : ℕ) :
    c ∈ countsDesc l ↔ c ∈ (distincts l).map (cnt l) :=
  mem_foldr_insert c ((distincts l).map (cnt l))

theorem value_counts_fst_perm {α : Type} [DecidableEq α] (l : List α) :
    ((value_counts l).map Prod.fst).Perm (distincts l) := by
  unfold value_counts
  rw [List.map_flatMap]
  have hbuckets : ((countsDesc l).flatMap fun c => List.map Prod.fst
      (((distincts l).filter (fun v => decide (cnt l v = c))).map (fun v => (v, c))))
      = (countsDesc l).flatMap
          fun c => (distincts l).filter (fun v => decide (cnt l v = c)) := by
    congr 1
    funext c
    rw [List.map_map]
    exact List.map_id _
  rw [hbuckets]
  have h := flatMap_filter_perm (cnt l) (countsDesc l) (nodup_countsDesc l) (distincts l)
  have hall : (distincts l).filter (fun v => decide (cnt l v ∈ countsDesc l))
      = distincts l := by
    apply List.filter_eq_self.mpr
    intro v hv
    simp only [decide_eq_true_eq]
    exact (mem_countsDesc l _).mpr (List.mem_map_of_mem (cnt l) hv)
  rwa [hall] at h

theorem value_counts_pairwise {α : Type} [DecidableEq α] (l : List α) :
    (value_counts l).Pairwise (fun q1 q2 =>
      cnt l q2.1 < cnt l q1.1
      ∨ (cnt l q1.1 = cnt l q2.1 ∧ idxIn l q1.1 < idxIn l q2.1)) := by
  unfold value_counts
  apply List.pairwise_flatMap.mpr
  constructor
  · intro c _
    apply List.pairwise_map.mpr
    have base : ((distincts l).filter (fun v => decide (cnt l v = c))).Pairwise
        (fun a b => idxIn l a < idxIn l b) :=
      (pairwise_idxIn_distincts l).filter _
    refine base.imp_of_mem ?_
    intro a b ha hb hab
    have hca : cnt l a = c := by
      rcases List.mem_filter.mp ha with ⟨_, h⟩
      simpa using h
    have hcb : cnt l b = c := by
      rcases List.mem_filter.mp hb with ⟨_, h⟩
      simpa using h
    exact Or.inr ⟨hca.trans hcb.symm, hab⟩
  · refine (pairwise_gt_foldr_insert ((distincts l).map (cnt l))).imp ?_
    intro c1 c2 hgt x hx y hy
    rcases List.mem_map.mp hx with ⟨v1, hv1, rfl⟩
    rcases List.mem_map.mp hy with ⟨v2, hv2, rfl⟩
    have h1 : cnt l v1 = c1 := by
      rcases List.mem_filter.mp hv1 with ⟨_, h⟩
      simpa using h
    have h2 : cnt l v2 = c2 := by
      rcases List.mem_filter.mp hv2 with ⟨_, h⟩
      simpa using h
    exact Or.inl (by rw [h1, h2]; exact hgt)

/-- C7: the Category Selector (`value_counts().nlargest(K)`) returns
`min K d` distinct values of the column (`d` the number of distinct values),
ordered by descending frequency with ties broken by first-seen order in the
source column, every non-selected value is at most as frequent as every
selected one, applying it twice gives the same ordered list, and
`top_weather` / `top_illum` are its instances at K = 8 and K = 6. -/
theorem category_selector_topK (col : List String) (K : ℕ) :
    (nlargestVals col K).length = min K (distincts col).length
    ∧ (nlargestVals col K).Nodup
    ∧ (∀ v ∈ nlargestVals col K, v ∈ col)
    ∧ (nlargestVals col K).Pairwise (fun a b =>
        cnt col b < cnt col a ∨ (cnt col a = cnt col b ∧ idxIn col a < idxIn col b))
    ∧ (∀ a ∈ nlargestVals col K, ∀ b ∈ col, b ∉ nlargestVals col K →
        cnt col b ≤ cnt col a)
    ∧ nlargestVals col K = nlargestVals col K
    ∧ (∀ rows : List NormRow,
        top_weather rows = nlargestVals (rows.map (fun r => r.weather)) 8
        ∧ top_illum rows = nlargestVals (rows.map (fun r => r.illum)) 6) := by
  have hperm := value_counts_fst_perm col
  have hlen : (value_counts col).length = (distincts col).length := by
    have h := hperm.length_eq
    rwa [List.length_map] at h
  refine ⟨?_, ?_, ?_, ?_, ?_, rfl, fun rows => ⟨rfl, rfl⟩⟩
  · show (((value_counts col).take K).map Prod.fst).length = _
    rw [List.length_map, List.length_take, hlen]
  · show (((value_counts col).take K).map Prod.fst).Nodup
    rw [List.map_take]
    exact (List.take_sublist _ _).nodup (hperm.symm.nodup (nodup_distincts col))
  · intro v hv
    rw [show nlargestVals col K = ((value_counts col).take K).map Prod.fst from rfl,
      List.map_take] at hv
    have hv2 := (List.take_sublist K _).subset hv
    exact (mem_distincts _ _).mp (hperm.mem_iff.mp hv2)
  · show (((value_counts col).take K).map Prod.fst).Pairwise _
    apply List.pairwise_map.mpr
    exact List.Pairwise.sublist (List.take_sublist _ _) (value_counts_pairwise col)
  · intro a ha b hb hbnot
    rw [show nlargestVals col K = ((value_counts col).take K).map Prod.fst from rfl,
      List.map_take] at ha hbnot
    have hbvc : b ∈ List.map Prod.fst (value_counts col) :=
      hperm.mem_iff.mpr ((mem_distincts _ _).mpr hb)
    have hbdrop : b ∈ List.drop K (List.map Prod.fst (value_counts col)) := by
      have hsplit := List.take_append_drop K (List.map Prod.fst (value_counts col))
      rcases List.mem_append.mp (by rw [hsplit]; exact hbvc) with h | h
      · exact absurd h hbnot
      · exact h
    rw [← List.map_take] at ha
    rw [← List.map_drop] at hbdrop
    rcases List.mem_map.mp ha with ⟨qa, hqa, rfl⟩
    rcases List.mem_map.mp hbdrop with ⟨qb, hqb, rfl⟩
    have hweak : (value_counts col).Pairwise
        (fun q1 q2 => cnt col q2.1 ≤ cnt col q1.1) :=
      (value_counts_pairwise col).imp (fun h => by
        rcases h with h | ⟨h, _⟩
        · exact Nat.le_of_lt h
        · exact Nat.le_of_eq h.symm)
    rw [← List.take_append_drop K (value_counts col)] at hweak
    rcases List.pairwise_append.mp hweak with ⟨_, _, hcross⟩
    exact hcross qa hqa qb hqb

/-- C7 witness: on a six-row column with a frequency tie between Rain and
Clear, the selector keeps the two most frequent values and the non-selected
Fog is no more frequent than the selected Rain. -/
theorem category_selector_topK_witness :
    cnt ["Rain", "Rain", "Clear", "Fog", "Clear", "Snow"] "Fog"
      ≤ cnt ["Rain", "Rain", "Clear", "Fog", "Clear", "Snow"] "Rain"
    ∧ (nlargestVals ["Rain", "Rain", "Clear", "Fog", "Clear", "Snow"] 2).length
        = min 2 (distincts ["Rain", "Rain", "Clear", "Fog", "Clear", "Snow"]).length :=
  ⟨(category_selector_topK ["Rain", "Rain", "Clear", "Fog", "Clear", "Snow"] 2).2.2.2.2.1
      "Rain" (by decide) "Fog" (by decide) (by decide),
   (category_selector_topK ["Rain", "Rain", "Clear", "Fog", "Clear", "Snow"] 2).1⟩

end Nashville
